import Mathlib

/-
Verification development for the field-level encryption layer of the
alx-project-nexus backend (src/backend/utils/encryption.py).

Modelling notes.

Strings.  A Python string value flowing through this subsystem is either an
ordinary text string or the output of `base64.b64encode(fernet.encrypt(...))`
for some key, fresh IV ("nonce") and plaintext.  We embed this as the
inductive type `MStr`: `MStr.txt s` is an ordinary string, and
`MStr.tok key nonce pt` is the string
`base64.b64encode(Fernet(_generate_key(key)).encrypt(pt.encode('utf-8'))).decode('ascii')`.

Cryptography.  The cryptographic core (PBKDF2, AES-128-CBC, HMAC-SHA256 inside
the Fernet construction) is modelled ideally, as is standard for
authenticated encryption: a Fernet token decrypts to its plaintext exactly
under the key that produced it and authentication fails under any other key;
PBKDF2 key derivation is deterministic and collision-free, so the derived key
is represented by the passphrase string itself; concrete byte strings that
were not produced by `fernet.encrypt` never pass the HMAC check.  Everything
the surrounding Python code actually observes about tokens is kept concrete
and is computed faithfully from the Fernet specification:

* a raw Fernet token is `0x80 ‖ timestamp(8) ‖ IV(16) ‖ ciphertext ‖ HMAC(32)`
  where `len(ciphertext) = pkcs7Len (len(plaintext bytes))`, so the raw token
  has `57 + pkcs7Len n` bytes;
* `fernet.encrypt` returns the urlsafe-base64 encoding of the raw token, a
  pure ASCII string of length `b64Len (57 + pkcs7Len n)`;
* `base64.b64encode` of an `m`-byte input has length `b64Len m = 4*⌈m/3⌉` and
  contains the character `'='` exactly when `m % 3 ≠ 0` (base64 alphabet
  characters are never `'='`; padding appears iff the length is not a
  multiple of 3), and it always decodes successfully.

The format heuristic `_is_encrypted_data` and everything above it
(`encrypt_data`, `decrypt_data`, the `EncryptedFieldMixin` methods and the
repair helpers) are translated line by line from the source.  Python's lax
`base64.b64decode` (binascii `a2b_base64` in non-strict mode) is implemented
exactly, including skipping of non-alphabet characters and its padding rules,
because `_is_encrypted_data` relies on its success/failure behaviour.

Fresh randomness (the per-call IV) is passed explicitly: `encrypt_data`
receives a `nonce : Nat` argument standing for the IV drawn inside
`fernet.encrypt`; distinct calls use distinct nonces.
-/

/-- Characters stripped by Python `str.strip()` (the Unicode whitespace set
used by `str.isspace`). -/
def isPyWS (c : Char) : Bool :=
  let n := c.toNat
  (0x09 ≤ n && n ≤ 0x0d) || (0x1c ≤ n && n ≤ 0x1f) || n = 0x20 || n = 0x85 ||
  n = 0xa0 || n = 0x1680 || (0x2000 ≤ n && n ≤ 0x200a) || n = 0x2028 ||
  n = 0x2029 || n = 0x202f || n = 0x205f || n = 0x3000

/-- Python `len(s)` : number of code points. -/
def pyLen (s : String) : Nat := s.data.length

/-- Python `c in s` for a single character. -/
def pyContains (s : String) (c : Char) : Bool := s.data.any (fun x => x == c)

/-- Python `s.encode('ascii')` succeeds iff every code point is below 128. -/
def asciiOnly (s : String) : Bool := s.data.all (fun c => c.toNat < 128)

/-- `not s.strip()` : the string is empty or consists of whitespace only. -/
def pyBlank (s : String) : Bool := s.data.all isPyWS

/-- Number of UTF-8 bytes of one character (Python `len(ch.encode('utf-8'))`). -/
def charUtf8Size (c : Char) : Nat :=
  if c.toNat < 0x80 then 1
  else if c.toNat < 0x800 then 2
  else if c.toNat < 0x10000 then 3
  else 4

/-- Number of UTF-8 bytes of a string. -/
def utf8LenChars : List Char → Nat
  | [] => 0
  | c :: cs => charUtf8Size c + utf8LenChars cs

/-- Value of a standard base64 alphabet character. -/
def b64CharVal (c : Char) : Option Nat :=
  let n := c.toNat
  if 65 ≤ n && n ≤ 90 then some (n - 65)
  else if 97 ≤ n && n ≤ 122 then some (n - 97 + 26)
  else if 48 ≤ n && n ≤ 57 then some (n - 48 + 52)
  else if n = 43 then some 62
  else if n = 47 then some 63
  else none

/-- CPython `binascii.a2b_base64` in non-strict mode (the behaviour of
`base64.b64decode` as called by the source, with `validate=False`):
characters outside the alphabet are skipped; `'='` is ignored while fewer
than two data characters of the current quad have been seen; a completed
padding sequence ends the decode, discarding the rest of the input; a
dangling quad at the end is an error.  State: remaining input, quad
position, leftover bits, pad count, accumulated output (reversed). -/
def a2bAux : List Char → Nat → Nat → Nat → List Nat → Option (List Nat)
  | [], qp, _, _, acc => if qp = 0 then some acc.reverse else none
  | c :: rest, qp, left, pads, acc =>
    if c = '=' then
      if 2 ≤ qp then
        if 4 ≤ qp + (pads + 1) then some acc.reverse
        else a2bAux rest qp left (pads + 1) acc
      else a2bAux rest qp left pads acc
    else
      match b64CharVal c with
      | none => a2bAux rest qp left pads acc
      | some v =>
        match qp with
        | 0 => a2bAux rest 1 v 0 acc
        | 1 => a2bAux rest 2 (v % 16) 0 ((left * 4 + v / 16) :: acc)
        | 2 => a2bAux rest 3 (v % 4) 0 ((left * 16 + v / 4) :: acc)
        | _ => a2bAux rest 0 0 0 ((left * 64 + v) :: acc)

/-- Python `base64.b64decode(s.encode('ascii'))` on the characters of `s`
(`none` models the raised `binascii.Error`). -/
def a2bBase64 (cs : List Char) : Option (List Nat) := a2bAux cs 0 0 0 []

/-- PKCS7: length of the AES-CBC ciphertext for an `n`-byte plaintext. -/
def pkcs7Len (n : Nat) : Nat := (n / 16 + 1) * 16

/-- Length in characters of the base64 encoding of `n` bytes. -/
def b64Len (n : Nat) : Nat := 4 * ((n + 2) / 3)

/-- Length in bytes of a raw Fernet token over an `n`-byte plaintext:
version (1) + timestamp (8) + IV (16) + ciphertext + HMAC (32). -/
def fernetRawLen (n : Nat) : Nat := 57 + pkcs7Len n

/-- Length in characters of `fernet.encrypt(...)` (urlsafe base64 of the raw
token) for an `n`-byte plaintext. -/
def tokLen (n : Nat) : Nat := b64Len (fernetRawLen n)

/-- A Python string value in the encryption subsystem: ordinary text, or the
`base64.b64encode`d Fernet token produced by `encrypt_data` with a given
passphrase, IV nonce and plaintext string. -/
inductive MStr where
  | txt : String → MStr
  | tok : String → Nat → MStr → MStr
deriving DecidableEq, Repr

/-- Number of UTF-8 bytes of the string (`len(v.encode('utf-8'))`); a token
string is pure ASCII of length `b64Len (tokLen _)`. -/
def mstrUtf8Len : MStr → Nat
  | .txt s => utf8LenChars s.data
  | .tok _ _ pt => b64Len (tokLen (mstrUtf8Len pt))

/-- Python `len(v)` (code points); for the ASCII token strings this agrees
with the UTF-8 length. -/
def mstrLen : MStr → Nat
  | .txt s => pyLen s
  | .tok _ _ pt => b64Len (tokLen (mstrUtf8Len pt))

/-- Python truthiness of the string (`bool(v)` : non-empty). -/
def mstrTruthy (v : MStr) : Bool := mstrLen v != 0

/-- `not v or not v.strip()` : empty or all-whitespace.  Token strings
consist of base64 alphabet and padding characters, never whitespace. -/
def mstrBlank : MStr → Bool
  | .txt s => pyBlank s
  | .tok _ _ _ => false

/-- `'=' in v`.  For a token string (outer base64 of the `m`-byte inner token
string) the only possible `'='` characters are the outer padding, present
iff `m % 3 ≠ 0`. -/
def mstrHasPad : MStr → Bool
  | .txt s => pyContains s '='
  | .tok _ _ pt => tokLen (mstrUtf8Len pt) % 3 != 0

/-- Whether `base64.b64decode(v.encode('ascii'))` succeeds.  `b64encode`
output is always ASCII and decodable. -/
def mstrB64Decodable : MStr → Bool
  | .txt s => asciiOnly s && (a2bBase64 s.data).isSome
  | .tok _ _ _ => true

/-- `_is_encrypted_data` (encryption.py lines 52-63): `False` for empty or
short strings; inside the `try`, decode from base64 and return
`'=' in data and len(data) > 50`; any exception yields `False`. -/
def is_encrypted_data (d : MStr) : Bool :=
  if mstrLen d < 50 then false
  else if mstrB64Decodable d then mstrHasPad d && decide (50 < mstrLen d)
  else false

/-- `encrypt_data` (encryption.py lines 65-115) restricted to string inputs,
with the fresh Fernet IV passed explicitly as `nonce`: empty/whitespace
input returns `''`; input that already looks encrypted is returned
unchanged; otherwise the Fernet token over the UTF-8 bytes is produced and
base64-encoded. -/
def encrypt_data (data : MStr) (key : String) (nonce : Nat) : MStr :=
  if mstrBlank data then .txt ""
  else if is_encrypted_data data then data
  else .tok key nonce data

/-- `DecryptionError` (encryption.py lines 23-25). -/
inductive DecryptionError where
  | fail : DecryptionError
deriving DecidableEq, Repr

deriving instance DecidableEq for Except

/-- `decrypt_data` (encryption.py lines 117-161): empty/whitespace input
returns `''`; input that does not look encrypted is returned as-is
("backward compatibility"); otherwise the string is base64-decoded and
Fernet-decrypted.  Ideal authenticated decryption: a token decrypts to its
plaintext under its own key and raises `InvalidToken` under any other key;
concrete bytes that are not a Fernet token always raise `InvalidToken`.
Both raises surface as `DecryptionError`. -/
def decrypt_data (enc : MStr) (key : String) : Except DecryptionError MStr :=
  if mstrBlank enc then .ok (.txt "")
  else if !is_encrypted_data enc then .ok enc
  else
    match enc with
    | .txt _ => .error .fail
    | .tok k _ pt => if k = key then .ok pt else .error .fail

/-- The authenticated-encryption payload carried inside an encrypted token
(what `fernet.decrypt` returns for it, decoded as UTF-8). -/
def tokenPayload : MStr → Option MStr
  | .tok _ _ pt => some pt
  | .txt _ => none

/-- `_decrypt_multiple_layers` (encryption.py lines 423-445): repeatedly
decrypt while the result still looks encrypted, at most `fuel` (source
default 5) attempts; a decryption error or exhausted fuel returns the
current value; a result that no longer looks encrypted is returned. -/
def decryptLayers (key : String) : Nat → MStr → MStr
  | 0, cur => cur
  | fuel + 1, cur =>
    match decrypt_data cur key with
    | .error _ => cur
    | .ok d => if is_encrypted_data d then decryptLayers key fuel d else d

/-- A model record carrying the `EncryptedFieldMixin` per-instance state
(encryption.py lines 164-256): the declared `ENCRYPTED_FIELDS` list, the
attribute map (with `hasattr`), the `_original_values` snapshot and the
`_decrypted_cache`. -/
structure Entity where
  declared : List String
  hasAttr : String → Bool
  attrs : String → MStr
  original : String → Option MStr
  cache : String → Option MStr

/-- Python `setattr(self, f, v)`. -/
def setAttr (e : Entity) (f : String) (v : MStr) : Entity :=
  { e with
    attrs := fun g => if g = f then v else e.attrs g,
    hasAttr := fun g => g = f || e.hasAttr g }

/-- One iteration of the loop in `_encrypt_fields` (encryption.py lines
200-220): if the attribute exists, is truthy and differs from its snapshot
(`_original_values.get` returns `None` when absent, and a string never
equals `None`), then skip it when it already looks encrypted, otherwise
replace it with `encrypt_data(value)`. -/
def encryptFieldStep (key : String) (nonce : Nat) (e : Entity) (f : String) : Entity :=
  if e.hasAttr f = true then
    if mstrTruthy (e.attrs f) = true ∧ e.original f ≠ some (e.attrs f) then
      if is_encrypted_data (e.attrs f) = true then e
      else setAttr e f (encrypt_data (e.attrs f) key nonce)
    else e
  else e

/-- The `for field_name in self.ENCRYPTED_FIELDS` loop of `_encrypt_fields`,
with a fresh IV for each `encrypt_data` call. -/
def encryptFieldsAux (key : String) : Nat → Entity → List String → Entity
  | _, e, [] => e
  | n, e, f :: fs => encryptFieldsAux key (n + 1) (encryptFieldStep key n e f) fs

/-- `_encrypt_fields` (encryption.py lines 200-220). -/
def encrypt_fields (key : String) (nonce : Nat) (e : Entity) : Entity :=
  encryptFieldsAux key nonce e e.declared

/-- `_store_original_values` (encryption.py lines 194-198): snapshot the
current value of every declared attribute that exists; other snapshot
entries are left alone. -/
def store_original_values (e : Entity) : Entity :=
  { e with
    original := fun f =>
      if f ∈ e.declared ∧ e.hasAttr f = true then some (e.attrs f) else e.original f }

/-- `save` (encryption.py lines 177-186): encrypt the declared fields, let
the parent class write the row (the stored row is the attribute map), then
refresh the snapshot.  The decrypted cache is not touched. -/
def entitySave (key : String) (nonce : Nat) (e : Entity) : Entity :=
  store_original_values (encrypt_fields key nonce e)

/-- `get_decrypted_field` (encryption.py lines 222-243): non-declared fields
are returned raw; a cached value is returned; an empty stored value yields
`''`; otherwise `decrypt_data` runs — its result is cached and returned on
success, while a `DecryptionError` is logged and the raw stored value is
returned without caching.  Returns the value together with the updated
instance state. -/
def get_decrypted_field (key : String) (e : Entity) (f : String) : MStr × Entity :=
  if f ∉ e.declared then ((if e.hasAttr f then e.attrs f else .txt ""), e)
  else
    match e.cache f with
    | some v => (v, e)
    | none =>
      let ev := if e.hasAttr f then e.attrs f else .txt ""
      if mstrTruthy ev = false then (.txt "", e)
      else
        match decrypt_data ev key with
        | .ok v => (v, { e with cache := fun g => if g = f then some v else e.cache g })
        | .error _ => (ev, e)

/-- `set_field_value` (encryption.py lines 245-249): assign and evict the
cache entry. -/
def set_field_value (e : Entity) (f : String) (v : MStr) : Entity :=
  let e1 := setAttr e f v
  { e1 with cache := fun g => if g = f then none else e1.cache g }

/-- The per-field body of `fix_multiple_encrypted_data` (encryption.py lines
396-412) for one record: when the attribute exists and is truthy, run
`_decrypt_multiple_layers` on it; if the result differs, store it and save
with `ENCRYPTED_FIELDS` temporarily emptied — `_encrypt_fields` and
`_store_original_values` iterate over the emptied list, so the save writes
the attribute unchanged and touches neither snapshot nor cache. -/
def fixRecordField (key : String) (e : Entity) (f : String) : Entity :=
  if e.hasAttr f = true then
    if mstrTruthy (e.attrs f) = true then
      if decryptLayers key 5 (e.attrs f) ≠ e.attrs f then
        setAttr e f (decryptLayers key 5 (e.attrs f))
      else e
    else e
  else e

/-- Template for a one-field record used by concrete test instances: the
single declared field `"f"` holds `v`, the snapshot is empty, the cache
holds `c`. -/
def singleFieldEntity (v : MStr) (c : Option MStr) : Entity :=
  { declared := ["f"],
    hasAttr := fun g => g = "f",
    attrs := fun g => if g = "f" then v else .txt "",
    original := fun _ => none,
    cache := fun g => if g = "f" then c else none }

/-- The 52-character string of `'A'`s: longer than 50, valid base64, but
without `'='`. -/
def a52 : String := String.mk (List.replicate 52 'A')

/-- The 61-character string of `'A'`s: not valid base64 (61 ≡ 1 mod 4). -/
def a61 : String := String.mk (List.replicate 61 'A')

/-- The 16-character string of `'A'`s: its Fernet token has 89 raw bytes,
hence a 120-character urlsafe-base64 form, hence a padding-free outer
base64 encoding that `_is_encrypted_data` rejects. -/
def a16 : String := String.mk (List.replicate 16 'A')

/-- 50 `'A'`s followed by `"=="`: a plaintext that `_is_encrypted_data`
classifies as already encrypted. -/
def fakeTok : String := String.mk (List.replicate 50 'A' ++ ['=', '='])

/-- The urlsafe-base64 form of a Fernet token is at least 100 characters
long (the raw token has at least 73 bytes). -/
theorem tokLen_ge (n : Nat) : 100 ≤ tokLen n := by
  unfold tokLen fernetRawLen pkcs7Len b64Len
  omega

/-- Token strings are non-empty, hence truthy. -/
theorem mstrTruthy_tok (k : String) (n : Nat) (pt : MStr) :
    mstrTruthy (.tok k n pt) = true := by
  unfold mstrTruthy mstrLen
  have h := tokLen_ge (mstrUtf8Len pt)
  simp only [bne_iff_ne, ne_eq]
  unfold b64Len
  omega

/-- A string containing `'='` is not whitespace-only. -/
theorem pad_not_blank (s : String) (h : pyContains s '=' = true) : pyBlank s = false := by
  unfold pyContains at h
  unfold pyBlank
  rw [List.any_eq_true] at h
  obtain ⟨c, hc, he⟩ := h
  have hce : c = '=' := by simpa using he
  subst hce
  by_contra hb
  simp only [Bool.not_eq_false, List.all_eq_true] at hb
  exact absurd (hb _ hc) (by decide)

/-- A `txt` string that passes `_is_encrypted_data` contains `'='`. -/
theorem gate_txt_has_pad (s : String) (h : is_encrypted_data (.txt s) = true) :
    pyContains s '=' = true := by
  unfold is_encrypted_data at h
  split at h
  · exact absurd h (by simp)
  · split at h
    · have : mstrHasPad (.txt s) = true := by
        cases hp : mstrHasPad (.txt s) <;> simp [hp] at h ⊢
      simpa [mstrHasPad] using this
    · exact absurd h (by simp)

/-- A string that passes `_is_encrypted_data` is not blank (`'=' ∈` it, or it
is a token string). -/
theorem gate_not_blank (v : MStr) (h : is_encrypted_data v = true) :
    mstrBlank v = false := by
  cases v with
  | txt s => exact pad_not_blank s (gate_txt_has_pad s h)
  | tok k n pt => rfl

/-- No token string equals its own plaintext (structural recursion). -/
theorem tok_ne_self (pt : MStr) : ∀ (k : String) (n : Nat), MStr.tok k n pt ≠ pt := by
  induction pt with
  | txt s => intro k n h; exact MStr.noConfusion h
  | tok k' n' pt' ih =>
    intro k n h
    injection h with h1 h2 h3
    exact ih k' n' h3

/-- `encrypt_data` on a non-blank input that does not look encrypted
produces the base64-encoded Fernet token over that input. -/
theorem encrypt_not_gate (s : MStr) (k : String) (n : Nat)
    (hb : mstrBlank s = false) (hg : is_encrypted_data s = false) :
    encrypt_data s k n = .tok k n s := by
  unfold encrypt_data
  simp [hb, hg]

/-- `encrypt_data` on input that looks encrypted returns it unchanged. -/
theorem encrypt_gate_id (v : MStr) (k : String) (n : Nat)
    (h : is_encrypted_data v = true) : encrypt_data v k n = v := by
  unfold encrypt_data
  simp [gate_not_blank v h, h]

/-- `decrypt_data` on a non-blank input that does not look encrypted returns
it unchanged (the "backward compatibility" branch). -/
theorem decrypt_passthrough (v : MStr) (k : String)
    (hb : mstrBlank v = false) (hg : is_encrypted_data v = false) :
    decrypt_data v k = .ok v := by
  unfold decrypt_data
  simp [hb, hg]

/-- A token that looks encrypted decrypts to its plaintext under its own
key. -/
theorem decrypt_tok_same (k : String) (n : Nat) (s : MStr)
    (ht : is_encrypted_data (.tok k n s) = true) :
    decrypt_data (.tok k n s) k = .ok s := by
  unfold decrypt_data
  simp [mstrBlank, ht]

/-- A token that looks encrypted fails authentication under any other key. -/
theorem decrypt_tok_other (k k2 : String) (n : Nat) (s : MStr)
    (ht : is_encrypted_data (.tok k n s) = true) (hk : k ≠ k2) :
    decrypt_data (.tok k n s) k2 = .error .fail := by
  unfold decrypt_data
  simp [mstrBlank, ht, hk]

/-- Round-trip for the guarded case, shared between several claims: a
non-blank input not classified as encrypted, whose token is classified as
encrypted, decrypts back exactly. -/
theorem decrypt_encrypt_ok (s : MStr) (k : String) (n : Nat)
    (hb : mstrBlank s = false) (hg : is_encrypted_data s = false)
    (ht : is_encrypted_data (encrypt_data s k n) = true) :
    decrypt_data (encrypt_data s k n) k = .ok s := by
  rw [encrypt_not_gate s k n hb hg] at ht ⊢
  exact decrypt_tok_same k n s ht

/-- A field whose snapshot equals its current value is left alone by the
`_encrypt_fields` loop body. -/
theorem encryptFieldStep_id (key : String) (n : Nat) (e : Entity) (f : String)
    (h : e.hasAttr f = true → e.original f = some (e.attrs f)) :
    encryptFieldStep key n e f = e := by
  unfold encryptFieldStep
  by_cases hf : e.hasAttr f = true
  · simp [hf, h hf]
  · simp [hf]

/-- If every listed field's snapshot equals its current value, the
`_encrypt_fields` loop changes nothing. -/
theorem encryptFieldsAux_id (key : String) (l : List String) :
    ∀ (n : Nat) (e : Entity),
      (∀ f ∈ l, e.hasAttr f = true → e.original f = some (e.attrs f)) →
      encryptFieldsAux key n e l = e := by
  induction l with
  | nil => intro n e _; rfl
  | cons f fs ih =>
    intro n e h
    unfold encryptFieldsAux
    rw [encryptFieldStep_id key n e f (h f (by simp))]
    exact ih (n + 1) e (fun g hg => h g (by simp [hg]))

/-- The loop body never touches the declared list, the snapshot or the
cache. -/
theorem encryptFieldStep_frame (key : String) (n : Nat) (e : Entity) (f : String) :
    (encryptFieldStep key n e f).declared = e.declared ∧
    (encryptFieldStep key n e f).original = e.original ∧
    (encryptFieldStep key n e f).cache = e.cache := by
  unfold encryptFieldStep setAttr
  repeat' split
  all_goals simp

/-- The loop body preserves attribute existence. -/
theorem encryptFieldStep_hasAttr (key : String) (n : Nat) (e : Entity) (f g : String)
    (h : e.hasAttr g = true) : (encryptFieldStep key n e f).hasAttr g = true := by
  unfold encryptFieldStep setAttr
  repeat' split
  all_goals simp [h]

/-- Frame property for the whole `_encrypt_fields` loop. -/
theorem encryptFieldsAux_frame (key : String) (l : List String) :
    ∀ (n : Nat) (e : Entity),
      (encryptFieldsAux key n e l).declared = e.declared ∧
      (encryptFieldsAux key n e l).original = e.original ∧
      (encryptFieldsAux key n e l).cache = e.cache := by
  induction l with
  | nil => intro n e; exact ⟨rfl, rfl, rfl⟩
  | cons f fs ih =>
    intro n e
    have hs := encryptFieldStep_frame key n e f
    have ha := ih (n + 1) (encryptFieldStep key n e f)
    exact ⟨ha.1.trans hs.1, ha.2.1.trans hs.2.1, ha.2.2.trans hs.2.2⟩

/-- The `_encrypt_fields` loop preserves attribute existence. -/
theorem encryptFieldsAux_hasAttr (key : String) (l : List String) :
    ∀ (n : Nat) (e : Entity) (g : String), e.hasAttr g = true →
      (encryptFieldsAux key n e l).hasAttr g = true := by
  induction l with
  | nil => intro n e g h; exact h
  | cons f fs ih =>
    intro n e g h
    exact ih (n + 1) (encryptFieldStep key n e f) g (encryptFieldStep_hasAttr key n e f g h)

/-- C1 (counterexample).  The claim `decrypt(encrypt(s, k), k) == s` for
every non-empty string fails at `s = "A" * 16`: the Fernet token has 89 raw
bytes, its urlsafe-base64 form has 120 characters, so the outer base64
encoding (120 % 3 = 0) carries no `'='` and `_is_encrypted_data` rejects
it; `decrypt_data` therefore returns the token itself instead of `s`. -/
theorem roundtrip_cex :
    decrypt_data (encrypt_data (MStr.txt a16) "key" 0) "key" ≠
      Except.ok (MStr.txt a16) := by
  decide

/-- C1 (amended).  Round-trip holds for every non-blank string that the
gate does not classify as already encrypted and whose token the gate does
classify as encrypted: `decrypt_data (encrypt_data s k) k = s`. -/
theorem roundtrip_guarded (s : MStr) (k : String) (n : Nat)
    (hb : mstrBlank s = false) (hg : is_encrypted_data s = false)
    (ht : is_encrypted_data (encrypt_data s k n) = true) :
    decrypt_data (encrypt_data s k n) k = .ok s :=
  decrypt_encrypt_ok s k n hb hg ht

/-- C1 (witness): the guarded round-trip at `s = "Jane Doe"`. -/
theorem roundtrip_guarded_witness :
    decrypt_data (encrypt_data (MStr.txt "Jane Doe") "key" 0) "key" =
      .ok (MStr.txt "Jane Doe") :=
  roundtrip_guarded (.txt "Jane Doe") "key" 0 (by decide) (by decide) (by decide)

/-- C2 (counterexample).  The token produced for `"Jane Doe"` carries the
raw string itself as its authenticated-encryption payload; the payload
contains no `'"'` character, so it cannot be a JSON envelope holding the
value under a `data` field — `encrypt_data` performs "simple encryption
without metadata" (encryption.py line 107). -/
theorem envelope_cex :
    tokenPayload (encrypt_data (MStr.txt "Jane Doe") "key" 0) =
      some (MStr.txt "Jane Doe") ∧
    pyContains "Jane Doe" '"' = false := by
  exact ⟨by decide, by decide⟩

/-- C2 (amended).  For a non-blank input not classified as encrypted, the
token is the base64 encoding of the Fernet ciphertext whose decrypted
payload is exactly the original string — no JSON envelope, type name or
timestamp — and `decrypt_data` returns the decrypted string directly
without any JSON parsing, whenever the gate recognizes the token. -/
theorem token_payload_raw (s : MStr) (k : String) (n : Nat)
    (hb : mstrBlank s = false) (hg : is_encrypted_data s = false) :
    encrypt_data s k n = .tok k n s ∧
    tokenPayload (encrypt_data s k n) = some s ∧
    (is_encrypted_data (.tok k n s) = true → decrypt_data (.tok k n s) k = .ok s) := by
  have he := encrypt_not_gate s k n hb hg
  exact ⟨he, by rw [he]; rfl, fun ht => decrypt_tok_same k n s ht⟩

/-- C2 (witness): the amended statement at `s = "Jane Doe"`. -/
theorem token_payload_raw_witness :
    encrypt_data (MStr.txt "Jane Doe") "key" 0 = .tok "key" 0 (.txt "Jane Doe") ∧
    tokenPayload (encrypt_data (MStr.txt "Jane Doe") "key" 0) =
      some (MStr.txt "Jane Doe") ∧
    (is_encrypted_data (.tok "key" 0 (.txt "Jane Doe")) = true →
      decrypt_data (.tok "key" 0 (.txt "Jane Doe")) "key" = .ok (.txt "Jane Doe")) :=
  token_payload_raw (.txt "Jane Doe") "key" 0 (by decide) (by decide)

/-- C3 (counterexample).  `"A" * 52` is longer than 50 characters, ASCII
and valid base64 (52 ≡ 0 mod 4), so the claim predicts
`_is_encrypted_data` returns true; the code returns false because the
string contains no `'='`. -/
theorem gate_cex :
    50 ≤ pyLen a52 ∧ asciiOnly a52 = true ∧ (a2bBase64 a52.data).isSome = true ∧
    is_encrypted_data (MStr.txt a52) = false := by
  exact ⟨by decide, by decide, by decide, by decide⟩

/-- C3 (amended).  On strings, the gate returns true exactly when the
length exceeds 50, the string is ASCII, `base64.b64decode` succeeds and
the string contains `'='`; in particular `"Jane Doe"` is rejected (too
short). -/
theorem gate_characterization :
    (∀ s : String, is_encrypted_data (.txt s) = true ↔
      (50 < pyLen s ∧ asciiOnly s = true ∧ (a2bBase64 s.data).isSome = true ∧
        pyContains s '=' = true)) ∧
    is_encrypted_data (MStr.txt "Jane Doe") = false := by
  constructor
  · intro s
    unfold is_encrypted_data
    constructor
    · intro h
      split at h
      · exact absurd h (by simp)
      · rename_i h1
        split at h
        · rename_i h2
          simp only [mstrLen, pyLen] at h1
          simp only [mstrB64Decodable, Bool.and_eq_true] at h2
          simp only [mstrHasPad, mstrLen, pyLen, Bool.and_eq_true, decide_eq_true_eq] at h
          exact ⟨h.2, h2.1, h2.2, h.1⟩
        · exact absurd h (by simp)
    · rintro ⟨h1, h2, h3, h4⟩
      rw [if_neg, if_pos]
      · simp only [mstrHasPad, mstrLen, pyLen, Bool.and_eq_true, decide_eq_true_eq]
        exact ⟨h4, h1⟩
      · simp only [mstrB64Decodable, Bool.and_eq_true]
        exact ⟨h2, h3⟩
      · simp only [mstrLen]
        omega
  · decide

/-- C4 (counterexample).  `"A" * 61` is not valid base64 (61 ≡ 1 mod 4) and
51 characters would not matter: the claim predicts `decrypt_data` raises
`DecryptionError` on invalid base64; the code returns the input unchanged,
because the gate classifies it as unencrypted legacy data. -/
theorem decrypt_invalid_b64_cex :
    a2bBase64 a61.data = none ∧ 50 ≤ pyLen a61 ∧
    decrypt_data (MStr.txt a61) "key" = .ok (MStr.txt a61) := by
  exact ⟨by decide, by decide, by decide⟩

/-- C4 (amended).  Inputs the gate does not recognize (invalid base64, no
`'='`, or too short) are returned unchanged rather than raising; the
wrong-key guarantee holds for tokens the gate recognizes: decrypting
`encrypt(s, k1)` with `k2 ≠ k1` raises `DecryptionError` and never returns
wrong plaintext. -/
theorem decrypt_failure_modes (v s : MStr) (k k1 k2 : String) (n : Nat)
    (hv1 : mstrBlank v = false) (hv2 : is_encrypted_data v = false)
    (hb : mstrBlank s = false) (hg : is_encrypted_data s = false)
    (ht : is_encrypted_data (encrypt_data s k1 n) = true) (hk : k1 ≠ k2) :
    decrypt_data v k = .ok v ∧
    decrypt_data (encrypt_data s k1 n) k2 = .error .fail := by
  constructor
  · exact decrypt_passthrough v k hv1 hv2
  · rw [encrypt_not_gate s k1 n hb hg] at ht ⊢
    exact decrypt_tok_other k1 k2 n s ht hk

/-- C4 (witness): the amended statement at `v = "A" * 61`,
`s = "Jane Doe"`, keys `"k1"` and `"k2"`. -/
theorem decrypt_failure_modes_witness :
    decrypt_data (MStr.txt a61) "key" = .ok (MStr.txt a61) ∧
    decrypt_data (encrypt_data (MStr.txt "Jane Doe") "k1" 0) "k2" = .error .fail :=
  decrypt_failure_modes (.txt a61) (.txt "Jane Doe") "key" "k1" "k2" 0
    (by decide) (by decide) (by decide) (by decide) (by decide) (by decide)

/-- C5 (counterexample).  The claim that two calls always produce different
tokens fails at the plaintext `"A" * 50 ++ "=="`: the gate classifies it as
already encrypted, so both calls return the input itself and the outputs
coincide. -/
theorem nondet_cex :
    encrypt_data (MStr.txt fakeTok) "key" 0 = encrypt_data (MStr.txt fakeTok) "key" 1 := by
  decide

/-- C5 (amended).  For a non-blank input the gate does not classify as
encrypted, calls with distinct fresh nonces produce distinct tokens, and
each token decrypts back to the input whenever the gate recognizes it;
decryption itself is a deterministic function of token and key. -/
theorem encrypt_nondet_guarded (s : MStr) (k : String) (n1 n2 : Nat)
    (hb : mstrBlank s = false) (hg : is_encrypted_data s = false) (hn : n1 ≠ n2) :
    encrypt_data s k n1 ≠ encrypt_data s k n2 ∧
    (is_encrypted_data (encrypt_data s k n1) = true →
      decrypt_data (encrypt_data s k n1) k = .ok s) ∧
    (is_encrypted_data (encrypt_data s k n2) = true →
      decrypt_data (encrypt_data s k n2) k = .ok s) := by
  refine ⟨?_, fun h => decrypt_encrypt_ok s k n1 hb hg h,
    fun h => decrypt_encrypt_ok s k n2 hb hg h⟩
  rw [encrypt_not_gate s k n1 hb hg, encrypt_not_gate s k n2 hb hg]
  simp [hn]

/-- C5 (witness): the amended statement at `s = "Jane Doe"`, nonces 0, 1. -/
theorem encrypt_nondet_guarded_witness :
    encrypt_data (MStr.txt "Jane Doe") "key" 0 ≠ encrypt_data (MStr.txt "Jane Doe") "key" 1 ∧
    (is_encrypted_data (encrypt_data (MStr.txt "Jane Doe") "key" 0) = true →
      decrypt_data (encrypt_data (MStr.txt "Jane Doe") "key" 0) "key" =
        .ok (MStr.txt "Jane Doe")) ∧
    (is_encrypted_data (encrypt_data (MStr.txt "Jane Doe") "key" 1) = true →
      decrypt_data (encrypt_data (MStr.txt "Jane Doe") "key" 1) "key" =
        .ok (MStr.txt "Jane Doe")) :=
  encrypt_nondet_guarded (.txt "Jane Doe") "key" 0 1 (by decide) (by decide) (by decide)

/-- C6 (confirmed).  Persist is idempotent on declared encrypted fields:
after `save` runs, every declared field's snapshot equals its stored value,
so a second consecutive `save` finds `current_value == original` for every
field, performs no re-encryption, and leaves the whole attribute map —
in particular every declared field's stored bytes — identical. -/
theorem save_twice_stored_values_identical (key : String) (n1 n2 : Nat) (e : Entity) :
    (entitySave key n2 (entitySave key n1 e)).attrs = (entitySave key n1 e).attrs := by
  have hid : encrypt_fields key n2 (entitySave key n1 e) = entitySave key n1 e := by
    apply encryptFieldsAux_id
    intro f hf ha
    simp only [entitySave, store_original_values] at hf ha ⊢
    simp [hf, ha]
  calc (entitySave key n2 (entitySave key n1 e)).attrs
      = (store_original_values (encrypt_fields key n2 (entitySave key n1 e))).attrs := rfl
    _ = (store_original_values (entitySave key n1 e)).attrs := by rw [hid]
    _ = (entitySave key n1 e).attrs := rfl

/-- C7 (counterexample).  Triple encryption of `"A" * 16` genuinely nests
three layers (the first two tokens carry no `'='`, so the gate lets
`encrypt_data` wrap them again).  The repair loop peels only the outermost
layer: after one successful decrypt the result (the middle token, 312-
character inner form, no `'='`) no longer looks encrypted and is returned.
The repaired value is still doubly encrypted, `decrypt_data` passes it
through unchanged, and it is not the original plaintext — contradicting
"reduced to a single encryption layer such that decrypt(v) == s".  The
per-record repair step stores exactly that doubly-encrypted value. -/
theorem repair_cex :
    decryptLayers "key" 5
        (encrypt_data (encrypt_data (encrypt_data (MStr.txt a16) "key" 0) "key" 1) "key" 2) =
      encrypt_data (encrypt_data (MStr.txt a16) "key" 0) "key" 1 ∧
    decrypt_data (encrypt_data (encrypt_data (MStr.txt a16) "key" 0) "key" 1) "key" =
      .ok (encrypt_data (encrypt_data (MStr.txt a16) "key" 0) "key" 1) ∧
    tokenPayload (encrypt_data (encrypt_data (MStr.txt a16) "key" 0) "key" 1) ≠
      some (MStr.txt a16) ∧
    (fixRecordField "key"
        (singleFieldEntity
          (encrypt_data (encrypt_data (encrypt_data (MStr.txt a16) "key" 0) "key" 1) "key" 2)
          none) "f").attrs "f" =
      encrypt_data (encrypt_data (MStr.txt a16) "key" 0) "key" 1 := by
  exact ⟨by decide, by decide, by decide, by decide⟩

/-- C7 (amended).  When the first token is one the gate recognizes,
encrypting three times in a row collapses to a single layer (the second
and third calls return their input unchanged), and the repair loop on the
stored value peels that single layer back to the plaintext `s` itself, a
value `v` with `decrypt(v) = s` (via the unencrypted passthrough); the
per-record repair step replaces the stored value with `s`. -/
theorem repair_guarded (s : MStr) (k : String) (n1 n2 n3 : Nat) (e : Entity)
    (hb : mstrBlank s = false) (hg : is_encrypted_data s = false)
    (ht : is_encrypted_data (encrypt_data s k n1) = true)
    (he : e.hasAttr "f" = true) (hv : e.attrs "f" = encrypt_data s k n1) :
    encrypt_data (encrypt_data (encrypt_data s k n1) k n2) k n3 = encrypt_data s k n1 ∧
    decryptLayers k 5 (encrypt_data s k n1) = s ∧
    decrypt_data s k = .ok s ∧
    (fixRecordField k e "f").attrs "f" = s := by
  have h1 := encrypt_not_gate s k n1 hb hg
  have hcollapse : encrypt_data (encrypt_data (encrypt_data s k n1) k n2) k n3 =
      encrypt_data s k n1 := by
    rw [h1] at ht ⊢
    rw [encrypt_gate_id _ k n2 ht, encrypt_gate_id _ k n3 ht]
  have hlayers : decryptLayers k 5 (encrypt_data s k n1) = s := by
    rw [h1] at ht ⊢
    unfold decryptLayers
    rw [decrypt_tok_same k n1 s ht]
    simp [hg]
  refine ⟨hcollapse, hlayers, decrypt_passthrough s k hb hg, ?_⟩
  unfold fixRecordField
  rw [if_pos he, hv, h1, if_pos (mstrTruthy_tok k n1 s)]
  rw [h1] at hlayers
  rw [if_pos]
  · unfold setAttr
    simp [hlayers]
  · rw [hlayers]
    exact fun hcontra => tok_ne_self s k n1 hcontra.symm

/-- C7 (witness): the amended statement at `s = "Jane Doe"` with a
one-field record holding its token. -/
theorem repair_guarded_witness :
    decryptLayers "key" 5 (encrypt_data (MStr.txt "Jane Doe") "key" 0) =
      MStr.txt "Jane Doe" ∧
    (fixRecordField "key"
        (singleFieldEntity (encrypt_data (MStr.txt "Jane Doe") "key" 0) none) "f").attrs "f" =
      MStr.txt "Jane Doe" := by
  have h := repair_guarded (.txt "Jane Doe") "key" 0 1 2
    (singleFieldEntity (encrypt_data (MStr.txt "Jane Doe") "key" 0) none)
    (by decide) (by decide) (by decide) (by decide) (by decide)
  exact ⟨h.2.1, h.2.2.2⟩

/-- C8 (counterexample).  For a stored value the gate recognizes but whose
decryption fails (`"A" * 50 ++ "=="` passes the gate and is not a Fernet
token), `get_decrypted_field` returns the raw stored value but leaves the
decrypted cache empty — the degraded fallback is not cached, contradicting
"caches the result either way". -/
theorem fallback_not_cached_cex :
    (get_decrypted_field "key" (singleFieldEntity (.txt fakeTok) none) "f").1 =
      MStr.txt fakeTok ∧
    ((get_decrypted_field "key" (singleFieldEntity (.txt fakeTok) none) "f").2).cache "f" =
      none := by
  exact ⟨by decide, by decide⟩

/-- C8 (amended).  `get_decrypted_field` on a declared, present, truthy
field returns the cached value when one exists; with an empty cache it
returns `decrypt_data`'s result and caches it on success (including the
does-not-look-encrypted passthrough), while on decryption failure it
returns the raw stored value without raising and without caching. -/
theorem get_decrypted_field_behavior (key : String) (e : Entity) (f : String)
    (h1 : f ∈ e.declared) (h3 : e.hasAttr f = true) (h4 : mstrTruthy (e.attrs f) = true) :
    (∀ v, e.cache f = some v → get_decrypted_field key e f = (v, e)) ∧
    (e.cache f = none →
      (∀ v, decrypt_data (e.attrs f) key = .ok v →
        get_decrypted_field key e f =
          (v, { e with cache := fun g => if g = f then some v else e.cache g })) ∧
      (decrypt_data (e.attrs f) key = .error .fail →
        get_decrypted_field key e f = (e.attrs f, e))) := by
  constructor
  · intro v hv
    unfold get_decrypted_field
    rw [if_neg (by simp [h1]), hv]
  · intro h2
    constructor
    · intro v hv
      unfold get_decrypted_field
      rw [if_neg (by simp [h1]), h2]
      simp [h3, h4, hv]
    · intro hv
      unfold get_decrypted_field
      rw [if_neg (by simp [h1]), h2]
      simp [h3, h4, hv]

/-- C8 (witness): the failure branch of the amended statement on the
record whose field holds `"A" * 50 ++ "=="`. -/
theorem get_decrypted_field_behavior_witness :
    get_decrypted_field "key" (singleFieldEntity (.txt fakeTok) none) "f" =
      ((singleFieldEntity (.txt fakeTok) none).attrs "f",
        singleFieldEntity (.txt fakeTok) none) := by
  have h := get_decrypted_field_behavior "key" (singleFieldEntity (.txt fakeTok) none) "f"
    (by simp [singleFieldEntity]) (by decide) (by decide)
  exact (h.2 (by decide)).2 (by decide)

/-- C9 (counterexample).  Saving a record whose declared field changed
(plaintext `"John Smith"` becomes a token) does not evict the pre-existing
cache entry `"stale"`: `save` never touches `_decrypted_cache`, so a stale
entry survives the persist, contradicting "the decrypted-value cache holds
no entry for any field whose stored value changed during that persist". -/
theorem cache_survives_save_cex :
    (entitySave "key" 0
        (singleFieldEntity (.txt "John Smith") (some (.txt "stale")))).cache "f" =
      some (MStr.txt "stale") ∧
    (entitySave "key" 0
        (singleFieldEntity (.txt "John Smith") (some (.txt "stale")))).attrs "f" ≠
      (singleFieldEntity (.txt "John Smith") (some (.txt "stale"))).attrs "f" := by
  exact ⟨by decide, by decide⟩

/-- C9 (amended).  After a save the snapshot of every declared, present
field equals the now-stored value, and the decrypted cache is carried over
verbatim — it is not invalidated by `save` at all (eviction happens only in
`set_field_value` and `refresh_from_db`). -/
theorem save_snapshot_and_cache (key : String) (n : Nat) (e : Entity) (f : String)
    (h1 : f ∈ e.declared) (h2 : e.hasAttr f = true) :
    (entitySave key n e).original f = some ((entitySave key n e).attrs f) ∧
    (entitySave key n e).cache = e.cache := by
  have hfr := encryptFieldsAux_frame key e.declared n e
  have hha := encryptFieldsAux_hasAttr key e.declared n e f h2
  have hmem : f ∈ (encrypt_fields key n e).declared := by
    unfold encrypt_fields
    rw [hfr.1]
    exact h1
  constructor
  · show (if f ∈ (encrypt_fields key n e).declared ∧ (encrypt_fields key n e).hasAttr f = true
        then some ((encrypt_fields key n e).attrs f)
        else (encrypt_fields key n e).original f) = some ((entitySave key n e).attrs f)
    rw [if_pos ⟨hmem, hha⟩]
    rfl
  · show (store_original_values (encrypt_fields key n e)).cache = e.cache
    exact hfr.2.2

/-- C9 (witness): the amended statement on a concrete one-field record. -/
theorem save_snapshot_and_cache_witness :
    (entitySave "key" 0 (singleFieldEntity (.txt "John Smith") none)).original "f" =
      some ((entitySave "key" 0 (singleFieldEntity (.txt "John Smith") none)).attrs "f") ∧
    (entitySave "key" 0 (singleFieldEntity (.txt "John Smith") none)).cache =
      (singleFieldEntity (.txt "John Smith") none).cache :=
  save_snapshot_and_cache "key" 0 (singleFieldEntity (.txt "John Smith") none) "f"
    (by simp [singleFieldEntity]) (by decide)

/-- C10 (counterexample).  `encrypt_data` applied twice to `"A" * 16` does
produce a second nested encryption layer: the first token carries no `'='`
so the gate does not recognize it, and the second call wraps it again —
contradicting "applying encrypt_data twice can never add a second
encryption layer". -/
theorem double_encrypt_cex :
    encrypt_data (encrypt_data (MStr.txt a16) "key" 0) "key" 1 =
      .tok "key" 1 (.tok "key" 0 (.txt a16)) ∧
    encrypt_data (encrypt_data (MStr.txt a16) "key" 0) "key" 1 ≠
      encrypt_data (MStr.txt a16) "key" 0 := by
  exact ⟨by decide, by decide⟩

/-- C10 (amended).  `encrypt_data` returns unchanged every value the gate
classifies as already encrypted, and is therefore idempotent on those of
its outputs the gate recognizes; outputs the gate misses (tokens without
`'='`) are re-encrypted into genuine nesting. -/
theorem encrypt_idempotent_on_gate_positive (v : MStr) (k : String) (n m : Nat)
    (h : is_encrypted_data v = true) :
    encrypt_data v k n = v ∧
    encrypt_data (encrypt_data v k n) k m = encrypt_data v k n := by
  have h1 := encrypt_gate_id v k n h
  exact ⟨h1, by rw [h1, encrypt_gate_id v k m h]⟩

/-- C10 (witness): idempotence at the gate-recognized value
`"A" * 50 ++ "=="`. -/
theorem encrypt_idempotent_witness :
    encrypt_data (MStr.txt fakeTok) "key" 0 = MStr.txt fakeTok ∧
    encrypt_data (encrypt_data (MStr.txt fakeTok) "key" 0) "key" 1 =
      encrypt_data (MStr.txt fakeTok) "key" 0 :=
  encrypt_idempotent_on_gate_positive (.txt fakeTok) "key" 0 1 (by decide)
